import Mathlib

/-!
Formalisation of the appointment scheduling core of `app.py`
(the `AppointmentScheduler` class and the confirm / decline / complete
route handlers), as a shallow embedding in Lean.

Modelling conventions:
* Python `datetime` values are modelled at minute precision (every
  date-time the scheduler stores comes from
  `datetime.strptime(..., "%Y-%m-%d %H:%M")`, which has second = 0);
  chronological comparison of datetimes is modelled by the injective
  measure `dtVal` (total minutes in the proleptic Gregorian calendar),
  which agrees with CPython's field-lexicographic datetime order on
  valid datetimes.
* Python dicts holding appointments / availability entries are modelled
  as structures; weekly availability (a dict keyed by weekday name) is
  an association list, looked up by first match, as dict keys are unique.
* Python truthiness of the optional `provider_id` argument
  (`if provider_id:`) is modelled by `idTruthy` (None and 0 are falsy);
  user ids in the repository are `len(users) + 1`, hence positive.
* `int(...)` applied to the pieces of an `"HH:MM"` string is modelled by
  `pyInt?` (optional sign followed by decimal digits; CPython's extra
  tolerance for surrounding whitespace and underscores is not modelled,
  it is not exercised by any availability string considered here).
* File persistence (`save_appointments`) only mirrors the in-memory
  list to disk; the state of the engine is the in-memory list, which
  every operation returns explicitly.
-/

namespace ScheduleApp

/-- A naive local date-time at minute precision, as produced by
`datetime.strptime(f"{date} {time}", "%Y-%m-%d %H:%M")`. -/
structure DateTime where
  year : Nat
  month : Nat
  day : Nat
  hour : Nat
  minute : Nat
deriving DecidableEq

/-- Gregorian leap-year rule (as in CPython's `calendar.isleap`). -/
def isLeapYear (y : Nat) : Bool :=
  y % 4 == 0 && (y % 100 != 0 || y % 400 == 0)

/-- Number of days of month `m` (1..12) of year `y`. -/
def daysInMonth (y m : Nat) : Nat :=
  if m == 2 then (if isLeapYear y then 29 else 28)
  else if m == 4 || m == 6 || m == 9 || m == 11 then 30
  else 31

/-- Days in the months of year `y` strictly before month `m`. -/
def daysBeforeMonth (y m : Nat) : Nat :=
  (List.range (m - 1)).foldl (fun acc i => acc + daysInMonth y (i + 1)) 0

/-- Days from 0001-01-01 (day 0) to `y`-`m`-`d` in the proleptic
Gregorian calendar; CPython's `date(1, 1, 1)` is a Monday and
`date.weekday` is this count modulo 7. -/
def daysFromCivil (y m d : Nat) : Nat :=
  365 * (y - 1) + (y - 1) / 4 - (y - 1) / 100 + (y - 1) / 400
    + daysBeforeMonth y m + (d - 1)

/-- Weekday index of a date-time, 0 = Monday .. 6 = Sunday
(CPython `datetime.weekday`). -/
def weekdayIndex (dt : DateTime) : Nat :=
  daysFromCivil dt.year dt.month dt.day % 7

/-- Lower-case weekday names in `weekdayIndex` order, as produced by
`strftime('%A').lower()`. -/
def weekdayNames : List String :=
  ["monday", "tuesday", "wednesday", "thursday", "friday", "saturday", "sunday"]

/-- `appointment_datetime.strftime('%A').lower()`. -/
def dayName (dt : DateTime) : String :=
  weekdayNames.getD (weekdayIndex dt) "monday"

/-- Total minutes since 0001-01-01 00:00.  For valid datetimes this is
exactly CPython's datetime order, used to model `<`, `<=`, and the
ascending sort key. -/
def dtVal (dt : DateTime) : Nat :=
  1440 * daysFromCivil dt.year dt.month dt.day + 60 * dt.hour + dt.minute

/-- `dt.replace(hour := h, minute := m, second := 0, microsecond := 0)`
at minute precision. -/
def setTime (dt : DateTime) (h m : Nat) : DateTime :=
  { dt with hour := h, minute := m }

/-- Value of a non-empty all-digit character list, else `none`. -/
def digitsVal? (l : List Char) : Option Nat :=
  if !l.isEmpty && l.all Char.isDigit then
    some (l.foldl (fun acc c => 10 * acc + (c.toNat - 48)) 0)
  else none

/-- CPython `int(...)` on a string: optional sign followed by digits. -/
def pyInt? (l : List Char) : Option Int :=
  match l with
  | '-' :: rest => (digitsVal? rest).map (fun n => -(n : Int))
  | '+' :: rest => (digitsVal? rest).map (fun n => (n : Int))
  | _ => (digitsVal? l).map (fun n => (n : Int))

/-- `str.split(sep)` for a single-character separator. -/
def splitOnChar (sep : Char) : List Char → List (List Char)
  | [] => [[]]
  | c :: rest =>
    let r := splitOnChar sep rest
    if c == sep then [] :: r
    else
      match r with
      | [] => [[c]]
      | g :: gs => (c :: g) :: gs

/-- `map(int, s.split(':'))` unpacked into exactly two values, as in
`start_hour, start_minute = map(int, start_time_str.split(':'))`;
`none` models the `ValueError` on wrong arity or a non-integer piece. -/
def parseHM (s : String) : Option (Int × Int) :=
  match splitOnChar ':' s.data with
  | [a, b] =>
    match pyInt? a, pyInt? b with
    | some h, some m => some (h, m)
    | _, _ => none
  | _ => none

/-- Ranges accepted by `datetime.replace(hour := h, minute := m)`;
values outside raise `ValueError` (caught by the fail-open handler). -/
def validHM (h m : Int) : Bool :=
  decide (0 ≤ h ∧ h ≤ 23 ∧ 0 ≤ m ∧ m ≤ 59)

/-- A string parses as a usable HH:MM time: `map(int, s.split(':'))`
succeeds with two values inside `datetime.replace` ranges. -/
def hmOk (s : String) : Bool :=
  match parseHM s with
  | some (h, m) => validHM h m
  | none => false

/-- One weekday's entry of a provider's availability dict:
`{enabled: bool, start: "HH:MM", end: "HH:MM"}` (the `.get` defaults
`False` / `"09:00"` / `"17:00"` of the source are the values stored
here when a key is absent from the dict). -/
structure DayAvailability where
  enabled : Bool
  start : String
  «end» : String
deriving DecidableEq

/-- A provider's weekly availability dict, keyed by weekday name. -/
abbrev WeeklyAvailability := List (String × DayAvailability)

/-- `availability.get(day_name)`. -/
def lookupDay (availability : WeeklyAvailability) (day : String) :
    Option DayAvailability :=
  (availability.find? (fun e => e.1 == day)).map (·.2)

/-- `AppointmentScheduler.is_within_availability` (app.py:335-365).
The `try`/`except` around the two `replace` calls is modelled by the
`validHM` range test: out-of-range parsed values raise `ValueError`
and fall open to `true`, exactly like unparseable strings. -/
def isWithinAvailability (appointment_datetime : DateTime)
    (availability : WeeklyAvailability) : Bool :=
  if availability.isEmpty then true
  else
    match lookupDay availability (dayName appointment_datetime) with
    | none => false
    | some day_availability =>
      if !day_availability.enabled then false
      else
        match parseHM day_availability.start, parseHM day_availability.«end» with
        | some (sh, sm), some (eh, em) =>
          if validHM sh sm && validHM eh em then
            let day_start := setTime appointment_datetime sh.toNat sm.toNat
            let day_end := setTime appointment_datetime eh.toNat em.toNat
            decide (dtVal day_start ≤ dtVal appointment_datetime ∧
              dtVal appointment_datetime < dtVal day_end)
          else true
        | _, _ => true

/-- An appointment record as built by `add_appointment` and mutated by
the lifecycle routes.  `completed_at` is absent until completion
(`none`); the source stores `completed_at` as the ISO string of the
completion instant, modelled here as the instant itself. -/
structure Appointment where
  id : Nat
  type : String
  datetime : DateTime
  notes : String
  created_at : DateTime
  user_id : Option Nat
  provider_id : Option Nat
  status : String
  completed_at : Option DateTime := none
deriving DecidableEq

/-- Truthiness of the optional `provider_id` argument:
`None` and `0` are falsy in Python. -/
def idTruthy : Option Nat → Bool
  | none => false
  | some n => n != 0

/-- Truthiness of the optional `provider_availability` argument:
`None` and the empty dict are falsy. -/
def availTruthy : Option WeeklyAvailability → Bool
  | none => false
  | some a => !a.isEmpty

/-- `AppointmentScheduler.has_conflict` (app.py:367-379): skip an
existing appointment when a truthy `provider_id` was supplied and the
existing record's provider differs; otherwise conflict on exact
datetime equality. -/
def hasConflict (appointments : List Appointment)
    (appointment_datetime : DateTime) (provider_id : Option Nat) : Bool :=
  appointments.any (fun existing =>
    if idTruthy provider_id && existing.provider_id != provider_id then false
    else existing.datetime == appointment_datetime)

/-- A decimal field of `minLen`..`maxLen` digits, as matched by the
regular expressions CPython's `strptime` compiles for `%Y`/`%m`/`%d`/
`%H`/`%M`. -/
def numField? (minLen maxLen : Nat) (l : List Char) : Option Nat :=
  if minLen ≤ l.length && l.length ≤ maxLen then digitsVal? l else none

/-- `datetime.strptime(s, "%Y-%m-%d")`: four-digit year, one/two-digit
month and day, ranges checked by the `date` constructor
(`MINYEAR = 1`, month 1..12, day 1..days-in-month). -/
def parseDate (s : String) : Option (Nat × Nat × Nat) :=
  match splitOnChar '-' s.data with
  | [ys, ms, ds] =>
    match numField? 4 4 ys, numField? 1 2 ms, numField? 1 2 ds with
    | some y, some m, some d =>
      if 1 ≤ y ∧ 1 ≤ m ∧ m ≤ 12 ∧ 1 ≤ d ∧ d ≤ daysInMonth y m then
        some (y, m, d)
      else none
    | _, _, _ => none
  | _ => none

/-- `strptime(t, "%H:%M")`: one/two-digit hour 0..23 and minute 0..59. -/
def parseTime (s : String) : Option (Nat × Nat) :=
  match splitOnChar ':' s.data with
  | [hs, ms] =>
    match numField? 1 2 hs, numField? 1 2 ms with
    | some h, some m => if h ≤ 23 ∧ m ≤ 59 then some (h, m) else none
    | _, _ => none
  | _ => none

/-- `datetime.strptime(f"{date} {time}", "%Y-%m-%d %H:%M")`, modelled
by parsing the two joined pieces with their own sub-formats (the format
has exactly one space between them). -/
def parseDateTime (date time : String) : Option DateTime :=
  match parseDate date, parseTime time with
  | some (y, m, d), some (h, mi) => some ⟨y, m, d, h, mi⟩
  | _, _ => none

/-- `AppointmentScheduler.add_appointment` (app.py:300-333).  Returns
the Python return value (`False`/record, as `Option`) together with
the resulting appointment list; `datetime.now()` at the moment of the
call is the explicit argument `now`. -/
def addAppointment (appointments : List Appointment)
    (appointment_type date time notes : String)
    (user_id provider_id : Option Nat)
    (provider_availability : Option WeeklyAvailability)
    (now : DateTime) : Option Appointment × List Appointment :=
  match parseDateTime date time with
  | none => (none, appointments)
  | some appointment_datetime =>
    if idTruthy provider_id && availTruthy provider_availability &&
        !isWithinAvailability appointment_datetime
          (provider_availability.getD []) then
      (none, appointments)
    else if hasConflict appointments appointment_datetime provider_id then
      (none, appointments)
    else
      let appointment : Appointment :=
        { id := appointments.length + 1,
          type := appointment_type,
          datetime := appointment_datetime,
          notes := notes,
          created_at := now,
          user_id := user_id,
          provider_id := provider_id,
          status := "pending" }
      (some appointment, appointments ++ [appointment])

/-- The date component used by the filter of `get_appointments`:
`apt["datetime"].date()`. -/
def dateOf (dt : DateTime) : Nat × Nat × Nat :=
  (dt.year, dt.month, dt.day)

/-- The ascending-`datetime` sort order used by
`sorted(self.appointments, key=lambda x: x["datetime"])`. -/
def apptLe (a b : Appointment) : Prop :=
  dtVal a.datetime ≤ dtVal b.datetime

instance : DecidableRel apptLe :=
  fun a b => Nat.decLe (dtVal a.datetime) (dtVal b.datetime)

instance : IsTotal Appointment apptLe :=
  ⟨fun a b => Nat.le_total (dtVal a.datetime) (dtVal b.datetime)⟩

instance : IsTrans Appointment apptLe :=
  ⟨fun _ _ _ => Nat.le_trans⟩

/-- `AppointmentScheduler.get_appointments` (app.py:381-390).
`if date:` is Python truthiness, so both `None` and the empty string
take the unfiltered (sorted) branch; `sorted` is a stable sort,
modelled by insertion sort over the datetime key. -/
def getAppointments (appointments : List Appointment)
    (date : Option String) : List Appointment :=
  if (date.getD "").isEmpty then
    List.insertionSort apptLe appointments
  else
    match parseDate (date.getD "") with
    | some target =>
      appointments.filter (fun apt => dateOf apt.datetime == target)
    | none => []

/-- `AppointmentScheduler.cancel_appointment` (app.py:392-399):
delete the first record whose id matches; report whether one was found. -/
def cancelAppointment : List Appointment → Nat → Bool × List Appointment
  | [], _ => (false, [])
  | appointment :: rest, appointment_id =>
    if appointment.id == appointment_id then (true, rest)
    else
      let r := cancelAppointment rest appointment_id
      (r.1, appointment :: r.2)

/-- The `current_user` identity consulted by the lifecycle routes. -/
structure Caller where
  id : Nat
  role : String
deriving DecidableEq

/-- `next((apt for apt in scheduler.appointments if apt['id'] == appointment_id), None)`. -/
def findAppointment (appointments : List Appointment)
    (appointment_id : Nat) : Option Appointment :=
  appointments.find? (fun apt => apt.id == appointment_id)

/-- In-place mutation of the dict found by `next(...)`: replace the
first record with the given id. -/
def updateFirst (appointments : List Appointment) (appointment_id : Nat)
    (f : Appointment → Appointment) : List Appointment :=
  match appointments with
  | [] => []
  | a :: rest =>
    if a.id == appointment_id then f a :: rest
    else a :: updateFirst rest appointment_id f

/-- Route `confirm_appointment` (app.py:1656-1683): role check, lookup,
bound-provider check, `pending` status check, then set `confirmed`.
The returned Bool is `success` of the JSON response. -/
def confirmAppointment (appointments : List Appointment)
    (current_user : Caller) (appointment_id : Nat) :
    Bool × List Appointment :=
  if current_user.role != "provider" then (false, appointments)
  else
    match findAppointment appointments appointment_id with
    | none => (false, appointments)
    | some appointment =>
      if appointment.provider_id != some current_user.id then
        (false, appointments)
      else if appointment.status != "pending" then (false, appointments)
      else
        (true, updateFirst appointments appointment_id
          (fun a => { a with status := "confirmed" }))

/-- Route `decline_appointment` (app.py:1685-1712): same guards as
confirm, then set `declined`. -/
def declineAppointment (appointments : List Appointment)
    (current_user : Caller) (appointment_id : Nat) :
    Bool × List Appointment :=
  if current_user.role != "provider" then (false, appointments)
  else
    match findAppointment appointments appointment_id with
    | none => (false, appointments)
    | some appointment =>
      if appointment.provider_id != some current_user.id then
        (false, appointments)
      else if appointment.status != "pending" then (false, appointments)
      else
        (true, updateFirst appointments appointment_id
          (fun a => { a with status := "declined" }))

/-- Route `complete_appointment` (app.py:1356-1394): role check, lookup,
bound-provider check, `confirmed` status check, then the time gate
`current_time < appointment_datetime` rejects; otherwise set
`completed` and stamp `completed_at`.  The two `datetime.now()` calls
of the route are both modelled by the single argument `now` (the
stored datetime is always a datetime object here, so the
`isinstance(..., str)` branch does not arise). -/
def completeAppointment (appointments : List Appointment)
    (current_user : Caller) (appointment_id : Nat) (now : DateTime) :
    Bool × List Appointment :=
  if current_user.role != "provider" then (false, appointments)
  else
    match findAppointment appointments appointment_id with
    | none => (false, appointments)
    | some appointment =>
      if appointment.provider_id != some current_user.id then
        (false, appointments)
      else if appointment.status != "confirmed" then (false, appointments)
      else if dtVal now < dtVal appointment.datetime then
        (false, appointments)
      else
        (true, updateFirst appointments appointment_id
          (fun a => { a with status := "completed", completed_at := some now }))

/-! Concrete sample data for concrete evaluations: 2024-06-03 is a
Monday, 2024-06-01 a Saturday (checked against the calendar model). -/

/-- A fixed instant standing for `datetime.now()` at creation time. -/
def sampleNow : DateTime := ⟨2024, 1, 1, 8, 0⟩

/-- Monday 2024-06-03 at 10:00. -/
def monSlot : DateTime := ⟨2024, 6, 3, 10, 0⟩

/-- Monday 2024-06-03 at 15:00. -/
def lateSlot : DateTime := ⟨2024, 6, 3, 15, 0⟩

/-- Working hours Monday 09:00-17:00 only. -/
def availMon : WeeklyAvailability := [("monday", ⟨true, "09:00", "17:00"⟩)]

/-- Monday enabled, but with an unparseable start time. -/
def availBadStart : WeeklyAvailability := [("monday", ⟨true, "bogus", "17:00"⟩)]

/-- A pending appointment of provider 5 at `monSlot`. -/
def apptProv5 : Appointment :=
  { id := 1, type := "hair", datetime := monSlot, notes := "",
    created_at := sampleNow, user_id := some 2, provider_id := some 5,
    status := "pending" }

/-- The same appointment after confirmation. -/
def confirmedProv5 : Appointment := { apptProv5 with status := "confirmed" }

/-- The same appointment after being declined. -/
def declinedProv5 : Appointment := { apptProv5 with status := "declined" }

/-- Provider 5 acting as `current_user`. -/
def provider5 : Caller := ⟨5, "provider"⟩

/-- A second appointment, later the same day. -/
def apptLate : Appointment := { apptProv5 with id := 2, datetime := lateSlot }

/-- Two appointments stored in reverse chronological order. -/
def twoAppts : List Appointment := [apptLate, apptProv5]

/-- The record produced by a first successful booking on an empty
collection. -/
def firstBooked : Appointment :=
  { id := 1, type := "hair", datetime := monSlot, notes := "",
    created_at := sampleNow, user_id := none, provider_id := none,
    status := "pending" }

/-! Helper lemmas shared by the claim theorems. -/

/-- Looking up an id after replacing the first record with that id
finds that record's image, provided the update preserves ids. -/
theorem findAppointment_updateFirst (st : List Appointment) (i : Nat)
    (f : Appointment → Appointment) (hid : ∀ a, (f a).id = a.id) :
    findAppointment (updateFirst st i f) i = (findAppointment st i).map f := by
  induction st with
  | nil => rfl
  | cons a rest ih =>
    by_cases h : (a.id == i) = true
    · have hfa : ((f a).id == i) = true := by rw [hid a]; exact h
      simp [updateFirst, findAppointment, List.find?, h, hfa]
    · have hfa : ((f a).id == i) = false := by
        rw [hid a]; exact Bool.eq_false_iff.mpr h
      have h0 : (a.id == i) = false := Bool.eq_false_iff.mpr h
      simp only [updateFirst, h0, Bool.false_eq_true, if_false,
        findAppointment, List.find?, hfa]
      exact ih

/-- `confirm_appointment` rejects without touching state whenever the
target's status is not `pending`, for any caller. -/
theorem confirm_rejects_of_status (st : List Appointment) (cu : Caller)
    (i : Nat) (apt : Appointment)
    (hfind : findAppointment st i = some apt)
    (hs : apt.status ≠ "pending") :
    confirmAppointment st cu i = (false, st) := by
  have hb : (apt.status != "pending") = true := bne_iff_ne.mpr hs
  by_cases h1 : (cu.role != "provider") = true
  · simp [confirmAppointment, h1]
  · by_cases h2 : (apt.provider_id != some cu.id) = true <;>
      simp [confirmAppointment, h1, h2, hfind, hb]

/-- `decline_appointment` likewise rejects when status is not `pending`. -/
theorem decline_rejects_of_status (st : List Appointment) (cu : Caller)
    (i : Nat) (apt : Appointment)
    (hfind : findAppointment st i = some apt)
    (hs : apt.status ≠ "pending") :
    declineAppointment st cu i = (false, st) := by
  have hb : (apt.status != "pending") = true := bne_iff_ne.mpr hs
  by_cases h1 : (cu.role != "provider") = true
  · simp [declineAppointment, h1]
  · by_cases h2 : (apt.provider_id != some cu.id) = true <;>
      simp [declineAppointment, h1, h2, hfind, hb]

/-- `complete_appointment` rejects when status is not `confirmed`. -/
theorem complete_rejects_of_status (st : List Appointment) (cu : Caller)
    (i : Nat) (apt : Appointment) (now : DateTime)
    (hfind : findAppointment st i = some apt)
    (hs : apt.status ≠ "confirmed") :
    completeAppointment st cu i now = (false, st) := by
  have hb : (apt.status != "confirmed") = true := bne_iff_ne.mpr hs
  by_cases h1 : (cu.role != "provider") = true
  · simp [completeAppointment, h1]
  · by_cases h2 : (apt.provider_id != some cu.id) = true <;>
      simp [completeAppointment, h1, h2, hfind, hb]

/-! Claim theorems. -/

/-- Claim C2: `has_conflict` is exact-datetime match scoped to the
provider: with no provider it compares the candidate against every
stored appointment; with a (positive, hence truthy) provider id it
conflicts exactly when some stored appointment has the same provider
and the identical datetime, so records with no or another provider —
and any record at a different minute — never conflict. -/
theorem conflict_exact_match (st : List Appointment) (t : DateTime) :
    (hasConflict st t none = true ↔ ∃ a ∈ st, a.datetime = t) ∧
    (∀ p : Nat, p ≠ 0 →
      (hasConflict st t (some p) = true ↔
        ∃ a ∈ st, a.provider_id = some p ∧ a.datetime = t)) := by
  constructor
  · simp [hasConflict, idTruthy, List.any_eq_true]
  · intro p hp
    have ht : idTruthy (some p) = true := by simp [idTruthy, hp]
    simp only [hasConflict, List.any_eq_true]
    constructor
    · rintro ⟨a, ha, hcond⟩
      by_cases hpp : a.provider_id = some p
      · exact ⟨a, ha, hpp, by simpa [ht, hpp] using hcond⟩
      · exfalso
        have hne : (a.provider_id != some p) = true := bne_iff_ne.mpr hpp
        simp [ht, hne] at hcond
    · rintro ⟨a, ha, hpp, hdt⟩
      exact ⟨a, ha, by simp [ht, hpp, hdt]⟩

/-- Witness for C2: provider 5's booking at `monSlot` makes the
scoped conflict test positive on exactly that slot. -/
theorem conflict_exact_match_witness :
    hasConflict [apptProv5] monSlot (some 5) = true ↔
      ∃ a ∈ [apptProv5], a.provider_id = some 5 ∧ a.datetime = monSlot :=
  (conflict_exact_match [apptProv5] monSlot).2 5 (by decide)

/-- Claim C3: on a non-empty availability map (the empty map is the
fail-open case of C4), a candidate whose weekday entry is missing or
disabled is rejected, and for an enabled entry with parseable,
in-range HH:MM bounds the candidate is admitted iff
start ≤ candidate < end on that calendar day (start inclusive,
end exclusive). -/
theorem availability_window_semantics (dt : DateTime)
    (availability : WeeklyAvailability) (hne : availability ≠ []) :
    (lookupDay availability (dayName dt) = none →
      isWithinAvailability dt availability = false) ∧
    (∀ da, lookupDay availability (dayName dt) = some da →
      da.enabled = false → isWithinAvailability dt availability = false) ∧
    (∀ da sh sm eh em,
      lookupDay availability (dayName dt) = some da → da.enabled = true →
      parseHM da.start = some (sh, sm) → parseHM da.«end» = some (eh, em) →
      validHM sh sm = true → validHM eh em = true →
      (isWithinAvailability dt availability = true ↔
        60 * sh.toNat + sm.toNat ≤ 60 * dt.hour + dt.minute ∧
        60 * dt.hour + dt.minute < 60 * eh.toNat + em.toNat)) := by
  have hemp : availability.isEmpty = false := by
    cases availability with
    | nil => exact absurd rfl hne
    | cons a l => rfl
  refine ⟨?_, ?_, ?_⟩
  · intro hl
    simp [isWithinAvailability, hemp, hl]
  · intro da hl he
    simp [isWithinAvailability, hemp, hl, he]
  · intro da sh sm eh em hl he hps hpe hvs hve
    simp only [isWithinAvailability, hemp, Bool.false_eq_true, if_false,
      hl, he, hps, hpe, hvs, hve, Bool.not_true, Bool.and_self, if_true,
      decide_eq_true_eq, setTime, dtVal]
    omega

/-- Witness for C3: Monday 10:00 against Monday 09:00-17:00 is
admitted, and the window test coincides with the minute arithmetic. -/
theorem availability_window_semantics_witness :
    isWithinAvailability monSlot availMon = true ↔
      60 * (9 : Int).toNat + (0 : Int).toNat ≤
          60 * monSlot.hour + monSlot.minute ∧
        60 * monSlot.hour + monSlot.minute <
          60 * (17 : Int).toNat + (0 : Int).toNat :=
  (availability_window_semantics monSlot availMon (by decide)).2.2
    ⟨true, "09:00", "17:00"⟩ 9 0 17 0 (by decide) (by decide) (by decide)
    (by decide) (by decide) (by decide)

/-- Claim C4: the availability evaluator fails open — an empty map
admits every candidate, and so does an enabled weekday entry whose
start or end does not yield a usable HH:MM time. -/
theorem availability_fail_open :
    (∀ dt : DateTime, isWithinAvailability dt [] = true) ∧
    (∀ (dt : DateTime) (availability : WeeklyAvailability)
      (da : DayAvailability),
      lookupDay availability (dayName dt) = some da → da.enabled = true →
      hmOk da.start = false ∨ hmOk da.«end» = false →
      isWithinAvailability dt availability = true) := by
  constructor
  · intro dt; rfl
  · intro dt availability da hl he hbad
    have hemp : availability.isEmpty = false := by
      cases availability with
      | nil => simp [lookupDay] at hl
      | cons a l => rfl
    cases hps : parseHM da.start with
    | none =>
      cases hpe : parseHM da.«end» with
      | none => simp [isWithinAvailability, hemp, hl, he, hps, hpe]
      | some v => simp [isWithinAvailability, hemp, hl, he, hps, hpe]
    | some v =>
      obtain ⟨sh, sm⟩ := v
      cases hpe : parseHM da.«end» with
      | none => simp [isWithinAvailability, hemp, hl, he, hps, hpe]
      | some w =>
        obtain ⟨eh, em⟩ := w
        have hv : validHM sh sm = false ∨ validHM eh em = false := by
          rcases hbad with hb | hb
          · left; unfold hmOk at hb; rw [hps] at hb; exact hb
          · right; unfold hmOk at hb; rw [hpe] at hb; exact hb
        rcases hv with hv | hv <;>
          simp [isWithinAvailability, hemp, hl, he, hps, hpe, hv]

/-- Witness for C4: any Monday candidate passes an empty map, and
passes Monday hours whose start string is `"bogus"`. -/
theorem availability_fail_open_witness :
    isWithinAvailability monSlot [] = true ∧
      isWithinAvailability monSlot availBadStart = true :=
  ⟨availability_fail_open.1 monSlot,
   availability_fail_open.2 monSlot availBadStart ⟨true, "bogus", "17:00"⟩
    (by decide) (by decide) (Or.inl (by decide))⟩

/-- Claim C5: on a confirmed appointment bound to the calling
provider, completion is gated by current time with a non-strict
comparison — rejected (state untouched) whenever now is before the
scheduled datetime, and successful as soon as now is at or after it,
setting status `completed` and `completed_at` to now. -/
theorem complete_time_gate (st : List Appointment) (current_user : Caller)
    (i : Nat) (apt : Appointment) (now : DateTime)
    (hfind : findAppointment st i = some apt)
    (hrole : current_user.role = "provider")
    (hprov : apt.provider_id = some current_user.id)
    (hstat : apt.status = "confirmed") :
    (dtVal now < dtVal apt.datetime →
      completeAppointment st current_user i now = (false, st)) ∧
    (dtVal apt.datetime ≤ dtVal now →
      (completeAppointment st current_user i now).1 = true ∧
      findAppointment (completeAppointment st current_user i now).2 i =
        some { apt with status := "completed", completed_at := some now }) := by
  have hupd := findAppointment_updateFirst st i
    (fun a => { a with status := "completed", completed_at := some now })
    (fun _ => rfl)
  constructor
  · intro hlt
    simp [completeAppointment, hfind, hrole, hprov, hstat, hlt]
  · intro hge
    have hnlt : ¬ dtVal now < dtVal apt.datetime := by omega
    simp [completeAppointment, hfind, hrole, hprov, hstat, hnlt, hupd]

/-- Witness for C5: completing provider 5's confirmed 10:00 booking
exactly at 10:00 succeeds and stamps `completed_at`. -/
theorem complete_time_gate_witness :
    (dtVal monSlot < dtVal confirmedProv5.datetime →
      completeAppointment [confirmedProv5] provider5 1 monSlot =
        (false, [confirmedProv5])) ∧
    (dtVal confirmedProv5.datetime ≤ dtVal monSlot →
      (completeAppointment [confirmedProv5] provider5 1 monSlot).1 = true ∧
      findAppointment
          (completeAppointment [confirmedProv5] provider5 1 monSlot).2 1 =
        some { confirmedProv5 with
                status := "completed",
                completed_at := some monSlot }) :=
  complete_time_gate [confirmedProv5] provider5 1 confirmedProv5 monSlot
    (by decide) (by decide) (by decide) (by decide)

/-- Claim C6: terminal states are immutable — once an appointment is
`declined` or `completed`, every confirm, decline, or complete call on
its id, by any caller, is rejected and leaves the collection (hence
the status) unchanged. -/
theorem terminal_status_frozen (st : List Appointment)
    (current_user : Caller) (i : Nat) (apt : Appointment) (now : DateTime)
    (hfind : findAppointment st i = some apt)
    (hterm : apt.status = "declined" ∨ apt.status = "completed") :
    confirmAppointment st current_user i = (false, st) ∧
    declineAppointment st current_user i = (false, st) ∧
    completeAppointment st current_user i now = (false, st) := by
  have hpend : apt.status ≠ "pending" := by
    rcases hterm with h | h <;> rw [h] <;> decide
  have hconf : apt.status ≠ "confirmed" := by
    rcases hterm with h | h <;> rw [h] <;> decide
  exact ⟨confirm_rejects_of_status st current_user i apt hfind hpend,
    decline_rejects_of_status st current_user i apt hfind hpend,
    complete_rejects_of_status st current_user i apt now hfind hconf⟩

/-- Witness for C6: after provider 5 declined the booking, even the
bound provider can no longer confirm, decline, or complete it. -/
theorem terminal_status_frozen_witness :
    confirmAppointment [declinedProv5] provider5 1 = (false, [declinedProv5]) ∧
    declineAppointment [declinedProv5] provider5 1 = (false, [declinedProv5]) ∧
    completeAppointment [declinedProv5] provider5 1 lateSlot =
      (false, [declinedProv5]) :=
  terminal_status_frozen [declinedProv5] provider5 1 declinedProv5 lateSlot
    (by decide) (Or.inl (by decide))

/-- Claim C7: a rejected creation (malformed date/time, outside
availability, or conflict — i.e. whenever `add_appointment` returns a
failure) leaves the appointment collection exactly as it was. -/
theorem add_rejected_state_unchanged (st : List Appointment)
    (ty date time notes : String) (uid pid : Option Nat)
    (pa : Option WeeklyAvailability) (now : DateTime)
    (hrej : (addAppointment st ty date time notes uid pid pa now).1 = none) :
    (addAppointment st ty date time notes uid pid pa now).2 = st := by
  unfold addAppointment at hrej ⊢
  cases hp : parseDateTime date time with
  | none => simp [hp]
  | some dt =>
    simp only [hp] at hrej ⊢
    cases h1 : (idTruthy pid && availTruthy pa &&
        !isWithinAvailability dt (pa.getD [])) with
    | true => simp [h1]
    | false =>
      cases h2 : hasConflict st dt pid with
      | true => simp [h1, h2]
      | false => simp [h1, h2] at hrej

/-- Witness for C7: booking at the malformed date `2024-13-01` is
rejected and the empty collection stays empty. -/
theorem add_rejected_state_unchanged_witness :
    (addAppointment [] "hair" "2024-13-01" "10:00" "" none none none
      sampleNow).2 = [] :=
  add_rejected_state_unchanged [] "hair" "2024-13-01" "10:00" "" none none
    none sampleNow (by decide)

/-- Claim C8: a successful creation returns a record whose status is
`pending`, whose datetime is the parsed date+time of the request, and
whose `created_at` is the creation instant, and appends exactly that
record to the collection. -/
theorem add_success_postcondition (st : List Appointment)
    (ty date time notes : String) (uid pid : Option Nat)
    (pa : Option WeeklyAvailability) (now : DateTime) (apt : Appointment)
    (hok : (addAppointment st ty date time notes uid pid pa now).1 = some apt) :
    apt.status = "pending" ∧
    parseDateTime date time = some apt.datetime ∧
    apt.created_at = now ∧
    (addAppointment st ty date time notes uid pid pa now).2 = st ++ [apt] := by
  unfold addAppointment at hok ⊢
  cases hp : parseDateTime date time with
  | none => rw [hp] at hok; exact absurd hok (by simp)
  | some dt =>
    simp only [hp] at hok ⊢
    cases h1 : (idTruthy pid && availTruthy pa &&
        !isWithinAvailability dt (pa.getD [])) with
    | true => simp [h1] at hok
    | false =>
      cases h2 : hasConflict st dt pid with
      | true => simp [h1, h2] at hok
      | false =>
        simp only [h1, h2, Bool.false_eq_true, if_false,
          Option.some.injEq] at hok ⊢
        subst hok
        exact ⟨rfl, rfl, rfl, rfl⟩

/-- Witness for C8: the first booking on an empty collection yields
exactly `firstBooked`, pending, at the parsed slot. -/
theorem add_success_postcondition_witness :
    firstBooked.status = "pending" ∧
    parseDateTime "2024-06-03" "10:00" = some firstBooked.datetime ∧
    firstBooked.created_at = sampleNow ∧
    (addAppointment [] "hair" "2024-06-03" "10:00" "" none none none
      sampleNow).2 = [] ++ [firstBooked] :=
  add_success_postcondition [] "hair" "2024-06-03" "10:00" "" none none none
    sampleNow firstBooked (by decide)

/-- Counterexample to C9 as stated: the empty string is a date filter
that `strptime` cannot parse, yet — being falsy — it takes the
unfiltered branch of `get_appointments` and returns the whole (sorted)
collection instead of the empty sequence. -/
theorem empty_filter_not_fail_closed :
    parseDate "" = none ∧ getAppointments twoAppts (some "") ≠ [] := by
  decide

/-- Claim C9 (amended: an empty-string filter is falsy, so it is
treated like no filter): with no filter — or the empty string — the
result is all appointments sorted ascending by datetime; a non-empty
well-formed date filter selects exactly the appointments whose date
component matches; a non-empty malformed filter yields the empty
sequence. -/
theorem listing_semantics (st : List Appointment) :
    ((getAppointments st none).Perm st ∧
      List.Sorted apptLe (getAppointments st none)) ∧
    (∀ (d : String) (target : Nat × Nat × Nat), d ≠ "" →
      parseDate d = some target →
      ∀ a : Appointment, a ∈ getAppointments st (some d) ↔
        a ∈ st ∧ dateOf a.datetime = target) ∧
    (∀ d : String, d ≠ "" → parseDate d = none →
      getAppointments st (some d) = []) ∧
    getAppointments st (some "") = getAppointments st none := by
  have hnone : getAppointments st none = List.insertionSort apptLe st := rfl
  refine ⟨⟨?_, ?_⟩, ?_, ?_, rfl⟩
  · rw [hnone]; exact List.perm_insertionSort apptLe st
  · rw [hnone]; exact List.sorted_insertionSort apptLe st
  · intro d target hd hp a
    have hde : d.isEmpty = false :=
      Bool.eq_false_iff.mpr (fun h => hd ((String.isEmpty_iff d).mp h))
    simp [getAppointments, hde, hp, List.mem_filter]
  · intro d hd hp
    have hde : d.isEmpty = false :=
      Bool.eq_false_iff.mpr (fun h => hd ((String.isEmpty_iff d).mp h))
    simp [getAppointments, hde, hp]

/-- Witness for C9 (amended): filtering two bookings by their common
date keeps both; filtering by `"junk"` yields nothing. -/
theorem listing_semantics_witness :
    (∀ a : Appointment, a ∈ getAppointments twoAppts (some "2024-06-03") ↔
      a ∈ twoAppts ∧ dateOf a.datetime = (2024, 6, 3)) ∧
    getAppointments twoAppts (some "junk") = [] :=
  ⟨(listing_semantics twoAppts).2.1 "2024-06-03" (2024, 6, 3) (by decide)
      (by decide),
    (listing_semantics twoAppts).2.2.1 "junk" (by decide) (by decide)⟩

/-- Claim C10: `has_conflict` ignores status, so a declined or
completed (but not cancelled) appointment still occupies its
provider/datetime slot: any further booking for that provider at that
exact datetime is rejected and the collection is unchanged. -/
theorem stale_slot_blocks_rebooking (st : List Appointment)
    (ty date time notes : String) (uid : Option Nat) (p : Nat)
    (pa : Option WeeklyAvailability) (now : DateTime) (apt : Appointment)
    (hmem : apt ∈ st) (hprov : apt.provider_id = some p)
    (_hterm : apt.status = "declined" ∨ apt.status = "completed")
    (hparse : parseDateTime date time = some apt.datetime) :
    addAppointment st ty date time notes uid (some p) pa now = (none, st) := by
  have hc : hasConflict st apt.datetime (some p) = true := by
    unfold hasConflict
    rw [List.any_eq_true]
    refine ⟨apt, hmem, ?_⟩
    by_cases hp0 : p = 0
    · simp [idTruthy, hp0]
    · simp [idTruthy, hp0, hprov]
  unfold addAppointment
  rw [hparse]
  cases h1 : (idTruthy (some p) && availTruthy pa &&
      !isWithinAvailability apt.datetime (pa.getD [])) with
  | true => simp [h1]
  | false => simp [h1, hc]

/-- Witness for C10: with provider 5's declined 10:00 booking still
stored, a new consumer's request for provider 5 at the same 10:00 is
rejected. -/
theorem stale_slot_blocks_rebooking_witness :
    addAppointment [declinedProv5] "hair" "2024-06-03" "10:00" "" (some 9)
      (some 5) none sampleNow = (none, [declinedProv5]) :=
  stale_slot_blocks_rebooking [declinedProv5] "hair" "2024-06-03" "10:00" ""
    (some 9) 5 none sampleNow declinedProv5 (by decide) (by decide)
    (Or.inl (by decide)) (by decide)

/-- Claim C1 (evidence of the code bug): ids are allocated as
`len(appointments) + 1`, so after booking two slots, cancelling the
first, and booking a third slot, the collection holds two records both
carrying id 2 — the spec's never-reuse guarantee fails. -/
theorem id_reused_after_cancellation :
    (let st1 := (addAppointment [] "hair" "2024-06-01" "10:00" "" none none
      none sampleNow).2
     let st2 := (addAppointment st1 "hair" "2024-06-01" "11:00" "" none none
      none sampleNow).2
     let st3 := (cancelAppointment st2 1).2
     let st4 := (addAppointment st3 "hair" "2024-06-01" "12:00" "" none none
      none sampleNow).2
     st4.map (fun a => a.id)) = [2, 2] := by
  decide

end ScheduleApp
